import Mathlib

/-!
Verification of the resilient Gemini client and prompt builder of the
Caelum Outlook add-in.

The development shallowly embeds the relevant parts of the TypeScript
sources `src/services/gemini.ts` and `src/prompts/builder.ts`:

* JavaScript strings are modelled as `List Char` (one entry per UTF-16
  code unit; all characters involved are in the basic plane).
* Thrown errors / rejected promises are modelled with `Except`.
* The retry loop of `retryWithBackoff` is modelled as a function from the
  sequence of attempt outcomes to the final outcome together with a trace
  (number of invocations of the attempt function, number of backoff
  sleeps).
* Raw (unclassified) failure values are modelled by the fields that
  `classifyError` / `extractStatusCode` actually inspect: the message
  string and the numeric `status` / `statusCode` / `code` /
  `response.status` fields.
-/

set_option maxRecDepth 10000

/-- The characters of a Lean string literal, used to write down modelled
JavaScript strings. -/
def chars (s : String) : List Char := s.data

-- ---------------------------------------------------------------------------
-- Generic string (List Char) helpers mirroring JavaScript semantics
-- ---------------------------------------------------------------------------

/-- Lower-case every character; models the simple case folding used by the
`/i` regular-expression flag on the ASCII patterns appearing in the source. -/
def lowerStr (s : List Char) : List Char := s.map Char.toLower

/-- Substring test: does `pat` occur (contiguously) in `s`? -/
def occursIn (pat s : List Char) : Bool :=
  (List.range (s.length + 1)).any (fun i => pat.isPrefixOf (s.drop i))

/-- Case-insensitive substring test; models `/pat/i.test(m)` for a literal
pattern `pat`. -/
def testCI (pat m : List Char) : Bool :=
  occursIn (lowerStr pat) (lowerStr m)

/-- Line terminators that the regular-expression metacharacter `.` does not
match in JavaScript. -/
def isLineTerm (c : Char) : Bool :=
  c = '\n' || c = '\r' || c = ' ' || c = ' '

/-- Case-insensitive test for a pattern of the form `pre.?post` (the two
literal pieces separated by an optional single non-line-terminator), as in
`/api.?key/i` and `/rate.?limit/i`. -/
def testGapCI (pre post m : List Char) : Bool :=
  let s := lowerStr m
  let p1 := lowerStr pre
  let p2 := lowerStr post
  (List.range (s.length + 1)).any (fun i =>
    let t := s.drop i
    (p1 ++ p2).isPrefixOf t ||
      (p1.isPrefixOf t &&
        match t.drop p1.length with
        | c :: rest => !(isLineTerm c) && p2.isPrefixOf rest
        | [] => false))

/-- Whitespace characters for the JavaScript `trim` / `trimEnd` family
(`\s`): ASCII whitespace plus the common Unicode space characters that can
appear in the modelled inputs. -/
def isJsWhitespace (c : Char) : Bool :=
  c = ' ' || c = '\t' || c = '\n' || c = '\r' || c = '\x0b' || c = '\x0c' ||
    c = ' ' || c = '﻿' || c = ' ' || c = ' '

/-- `String.prototype.trimEnd`: drop trailing whitespace. -/
def trimEndJs (s : List Char) : List Char :=
  (s.reverse.dropWhile isJsWhitespace).reverse

/-- `String.prototype.trim`: drop leading and trailing whitespace. -/
def jsTrim (s : List Char) : List Char :=
  trimEndJs (s.dropWhile isJsWhitespace)

-- ---------------------------------------------------------------------------
-- src/services/gemini.ts — types and constants
-- ---------------------------------------------------------------------------

/-- `enum GeminiErrorCode` — error codes surfaced by the Gemini service. -/
inductive GeminiErrorCode where
  | INVALID_API_KEY
  | QUOTA_EXCEEDED
  | RATE_LIMITED
  | NETWORK_ERROR
  | TIMEOUT
  | CONTENT_FILTERED
  | UNKNOWN
deriving DecidableEq, Repr

/-- `class GeminiError` — typed error thrown by the Gemini service
(the `name` field is the constant `'GeminiError'` and is omitted). -/
structure GeminiError where
  message : List Char
  code : GeminiErrorCode
  retryable : Bool
  statusCode : Option Int
deriving DecidableEq, Repr

/-- `const MAX_RETRIES = 3`. -/
def MAX_RETRIES : Nat := 3

/-- `const INITIAL_RETRY_DELAY_MS = 1000`. -/
def INITIAL_RETRY_DELAY_MS : Nat := 1000

/-- `const RETRY_BACKOFF_FACTOR = 2`. -/
def RETRY_BACKOFF_FACTOR : Nat := 2

/-- `const BASE_TIMEOUT_MS = 30_000`. -/
def BASE_TIMEOUT_MS : Nat := 30000

/-- `const TIMEOUT_PER_5K_CHARS_MS = 10_000`. -/
def TIMEOUT_PER_5K_CHARS_MS : Nat := 10000

/-- `const MAX_TIMEOUT_MS = 90_000`. -/
def MAX_TIMEOUT_MS : Nat := 90000

-- ---------------------------------------------------------------------------
-- src/services/gemini.ts — extractStatusCode and classifyError
-- ---------------------------------------------------------------------------

/-- The observable shape of a raw (unclassified) failure value: the message
string (`String(error)` / `error.message`) and the numeric fields that
`extractStatusCode` probes, each `none` when absent or not a number. -/
structure RawError where
  message : List Char
  status : Option Int
  statusCode : Option Int
  code : Option Int
  responseStatus : Option Int
deriving DecidableEq, Repr

/-- A value reaching `classifyError`: either already a `GeminiError`
(`error instanceof GeminiError`) or a raw failure value. -/
inductive RawValue where
  | classified (e : GeminiError)
  | raw (e : RawError)
deriving DecidableEq, Repr

/-- `extractStatusCode` — try to extract an HTTP status code from an error
object: first of `status`, `statusCode`, `code`, `response.status`. -/
def extractStatusCode (e : RawError) : Option Int :=
  match e.status with
  | some n => some n
  | none =>
    match e.statusCode with
    | some n => some n
    | none =>
      match e.code with
      | some n => some n
      | none => e.responseStatus

/-- The `statusCode && statusCode >= 500` test (a JavaScript status of `0`
is falsy, but `0 >= 500` is false anyway, so the truthiness test is
subsumed by the comparison). -/
def isServerStatus : Option Int → Bool
  | some s => decide (500 ≤ s)
  | none => false

/-- `classifyError` — classify raw errors into typed `GeminiError`
instances, following the source's if-chain in order. -/
def classifyError (v : RawValue) : GeminiError :=
  match v with
  | .classified e => e
  | .raw r =>
    let message := r.message
    let statusCode := extractStatusCode r
    -- Invalid / expired API key
    if statusCode = some 401 ∨ statusCode = some 403 ∨
        testGapCI (chars "api") (chars "key") message then
      ⟨chars "Invalid or expired API key. Please check your GEMINI_API_KEY.",
        .INVALID_API_KEY, false, statusCode⟩
    -- Rate limited
    else if statusCode = some 429 ∨ testGapCI (chars "rate") (chars "limit") message ∨
        testCI (chars "too many requests") message then
      ⟨chars "Rate limited by the Gemini API. Retrying with backoff…",
        .RATE_LIMITED, true, some 429⟩
    -- Quota exceeded
    else if statusCode = some 429 ∧ testCI (chars "quota") message then
      ⟨chars "API quota exceeded. Check your billing and quota settings in the Google Cloud Console.",
        .QUOTA_EXCEEDED, false, some 429⟩
    -- Network errors
    else if testCI (chars "network") message ∨ testCI (chars "fetch failed") message ∨
        testCI (chars "ECONNREFUSED") message ∨ testCI (chars "ENOTFOUND") message ∨
        testCI (chars "offline") message then
      ⟨chars "Network error — please check your internet connection.",
        .NETWORK_ERROR, true, none⟩
    -- Content safety filter
    else if testCI (chars "safety") message ∨ testCI (chars "blocked") message ∨
        testCI (chars "filter") message then
      ⟨chars "The response was blocked by content safety filters.",
        .CONTENT_FILTERED, false, none⟩
    -- Server errors (5xx) are retryable
    else if isServerStatus statusCode then
      ⟨chars "Server error (" ++
          (match statusCode with
            | some s => (toString s).data
            | none => chars "undefined") ++ chars "). Retrying…",
        .UNKNOWN, true, statusCode⟩
    -- Unknown
    else
      ⟨chars "Unexpected error: " ++ message, .UNKNOWN, false, statusCode⟩

-- ---------------------------------------------------------------------------
-- src/services/gemini.ts — calcTimeout and withTimeout
-- ---------------------------------------------------------------------------

/-- `calcTimeout` — adaptive timeout based on prompt length.  The source
reads `if (overrideMs) return overrideMs;`, a JavaScript truthiness test:
a supplied override of `0` is falsy and falls through to the adaptive
computation, exactly like an absent override.  `Math.ceil(promptLength /
5000)` on a natural number is `(promptLength + 4999) / 5000` in natural
division. -/
def calcTimeout (promptLength : Nat) (overrideMs : Option Nat) : Nat :=
  match overrideMs with
  | some o =>
    if o ≠ 0 then o
    else min (BASE_TIMEOUT_MS + ((promptLength + 4999) / 5000) * TIMEOUT_PER_5K_CHARS_MS)
      MAX_TIMEOUT_MS
  | none =>
    min (BASE_TIMEOUT_MS + ((promptLength + 4999) / 5000) * TIMEOUT_PER_5K_CHARS_MS)
      MAX_TIMEOUT_MS

/-- The `GeminiError` that `withTimeout` rejects with when the timer fires
first.  The interpolated duration `ms / 1000` is displayed with JavaScript
float division; only the integer part is modelled, which no claim
depends on.  Note `retryable := false`: timeouts on large prompts are not
transient. -/
def timeoutError (ms : Nat) : GeminiError :=
  ⟨chars "Request timed out after " ++ (toString (ms / 1000)).data ++
      chars "s. The email may be too long — try a shorter selection.",
    .TIMEOUT, false, none⟩

-- ---------------------------------------------------------------------------
-- src/services/gemini.ts — retryWithBackoff
-- ---------------------------------------------------------------------------

/-- Observable trace of one `retryWithBackoff` call: the final outcome,
the number of invocations of the attempt function `fn`, and the number of
backoff sleeps performed. -/
structure RetryTrace (α : Type) where
  result : Except GeminiError α
  calls : Nat
  sleeps : Nat
deriving Repr

/-- The body of `retryWithBackoff`'s `for` loop
(`for (let attempt = 0; attempt <= MAX_RETRIES; attempt++)`), with
`remaining = MAX_RETRIES - attempt` made explicit so that the recursion is
structural: `remaining = 0` is exactly the `attempt === MAX_RETRIES` case
of the source's `if (!lastError.retryable || attempt === MAX_RETRIES)
throw lastError;` (either disjunct alone rethrows `lastError`, so testing
them in either order yields the same outcome).  `attempts i` is the
outcome of the `i`-th invocation of `fn` (already a `GeminiError` on
failure: the source normalises with `classifyError` first). -/
def retryLoop (attempts : Nat → Except GeminiError α) (attempt : Nat) :
    Nat → RetryTrace α
  | 0 =>
    match attempts attempt with
    | .ok v => ⟨.ok v, 1, 0⟩
    | .error e => ⟨.error e, 1, 0⟩
  | remaining + 1 =>
    match attempts attempt with
    | .ok v => ⟨.ok v, 1, 0⟩
    | .error e =>
      if e.retryable then
        let t := retryLoop attempts (attempt + 1) remaining
        ⟨t.result, t.calls + 1, t.sleeps + 1⟩
      else ⟨.error e, 1, 0⟩

/-- `retryWithBackoff` — retry a function with exponential backoff; only
errors marked `retryable` are retried, and at most `MAX_RETRIES` retries
are performed after the original attempt. -/
def retryWithBackoff (attempts : Nat → Except GeminiError α) : RetryTrace α :=
  retryLoop attempts 0 MAX_RETRIES

-- ---------------------------------------------------------------------------
-- src/services/gemini.ts — generateText (plain-text mode response check)
-- ---------------------------------------------------------------------------

/-- The `GeminiError` thrown by `generateText` when the response text is
missing, empty or whitespace-only. -/
def emptyResponseError : GeminiError :=
  ⟨chars "The model returned an empty response. The content may have been filtered.",
    .CONTENT_FILTERED, false, none⟩

/-- The response check of `generateText`'s `callFn`:
`if (!text || text.trim().length === 0) throw ...; return text;`.
`none` models `response.text === undefined`. -/
def processResponse (text : Option (List Char)) : Except GeminiError (List Char) :=
  match text with
  | none => .error emptyResponseError
  | some t =>
    if t = [] ∨ (jsTrim t).length = 0 then .error emptyResponseError
    else .ok t

/-- One invocation of `generateText`'s `callFn`, given the outcome of the
`i`-th underlying SDK call: either a rejection with a raw value, or a
resolved response carrying an optional text field.  Every failure passes
through `classifyError` (the `catch` block), which returns an already
classified error unchanged. -/
def generateTextCall (outcomes : Nat → Except RawValue (Option (List Char)))
    (i : Nat) : Except GeminiError (List Char) :=
  match outcomes i with
  | .error v => .error (classifyError v)
  | .ok text =>
    match processResponse text with
    | .ok t => .ok t
    | .error e => .error (classifyError (.classified e))

/-- `generateText`, from the outcomes of the underlying SDK calls to the
final outcome and retry trace. -/
def generateTextModel (outcomes : Nat → Except RawValue (Option (List Char))) :
    RetryTrace (List Char) :=
  retryWithBackoff (generateTextCall outcomes)

-- ---------------------------------------------------------------------------
-- src/prompts/builder.ts — constants and truncateContext
-- ---------------------------------------------------------------------------

/-- `const CHARS_PER_TOKEN = 4` — rough estimate: 1 token ≈ 4 characters. -/
def CHARS_PER_TOKEN : Int := 4

/-- `const TRUNCATION_SUFFIX` — suffix appended when text is truncated. -/
def TRUNCATION_SUFFIX : List Char := chars "\n\n[Content truncated due to length…]"

/-- `findLastSentenceBoundary` — index just after the last
sentence-ending punctuation (`.`, `!` or `?`), or `-1` if none.  The
source scans from the last index downwards; searching the reversed list
for the first such character is the same scan: a hit at reversed index
`j` is the hit at index `i = length - 1 - j`, and `i + 1 = length - j`. -/
def findLastSentenceBoundary (s : List Char) : Int :=
  match s.reverse.findIdx? (fun c => c = '.' || c = '!' || c = '?') with
  | some j => (s.length : Int) - j
  | none => -1

/-- `truncateContext` — safely truncate text to fit an approximate token
budget.  `maxTokens` is an `Int` (JavaScript numbers may be negative
here); a thrown `Error` is an `Except.error` carrying the message. -/
def truncateContext (text : List Char) (maxTokens : Int) :
    Except (List Char) (List Char) :=
  if text = [] then .ok text
  else if maxTokens ≤ 0 then .error (chars "maxTokens must be a positive number.")
  else
    let maxChars := maxTokens * CHARS_PER_TOKEN
    -- No truncation needed
    if (text.length : Int) ≤ maxChars then .ok text
    else
      -- Reserve space for the truncation suffix
      let availableChars := maxChars - (TRUNCATION_SUFFIX.length : Int)
      if availableChars ≤ 0 then .ok (jsTrim TRUNCATION_SUFFIX)
      else
        -- Try to truncate at a sentence boundary
        let slice := text.take availableChars.toNat
        let lastSentenceEnd := findLastSentenceBoundary slice
        let truncated :=
          if 0 < lastSentenceEnd then slice.take lastSentenceEnd.toNat else slice
        .ok (trimEndJs truncated ++ TRUNCATION_SUFFIX)

-- ---------------------------------------------------------------------------
-- src/prompts/builder.ts — buildPrompt
-- ---------------------------------------------------------------------------

/-- The `{{KEY}}` placeholder string for a key. -/
def marker (k : List Char) : List Char := '{' :: '{' :: (k ++ ['}', '}'])

/-- `String.prototype.split(p)` for a non-empty separator string `p`:
repeatedly cut at the leftmost occurrence of `p`.  The first argument is
fuel, always called with at least the length of the string; each step
consumes at least one character, so the fuel-exhausted case is
unreachable from `jsSplit` (it is only there to make the recursion
structural). -/
def jsSplitAux (p : List Char) : Nat → List Char → List (List Char)
  | _, [] => [[]]
  | 0, s => [s]
  | fuel + 1, c :: s =>
    if p ≠ [] ∧ p.isPrefixOf (c :: s) then
      [] :: jsSplitAux p fuel ((c :: s).drop p.length)
    else
      match jsSplitAux p fuel s with
      | [] => [[c]]
      | f :: r => (c :: f) :: r

/-- `s.split(p)` for a non-empty separator `p` (the source only splits on
`{{KEY}}` placeholder strings, which are never empty). -/
def jsSplit (p s : List Char) : List (List Char) := jsSplitAux p s.length s

/-- Replace every (leftmost-first, non-overlapping) occurrence of `p` in
the string by `v`.  Same fuel discipline as `jsSplitAux`.  This is the
specification-side description of `s.split(p).join(v)`; the two are
proved equal below. -/
def replaceAllAux (p v : List Char) : Nat → List Char → List Char
  | _, [] => []
  | 0, s => s
  | fuel + 1, c :: s =>
    if p ≠ [] ∧ p.isPrefixOf (c :: s) then
      v ++ replaceAllAux p v fuel ((c :: s).drop p.length)
    else
      c :: replaceAllAux p v fuel s

/-- Replace every occurrence of `p` in `s` by `v`. -/
def replaceAll (p v s : List Char) : List Char := replaceAllAux p v s.length s

/-- One step of `buildPrompt`'s loop:
`result = result.split(placeholder).join(value)`. -/
def substituteEntry (acc : List Char) (kv : List Char × List Char) : List Char :=
  List.intercalate kv.2 (jsSplit (marker kv.1) acc)

/-- `buildPrompt` — replace `{{PLACEHOLDER}}` markers in a template with
the provided values.  `vs` is the entry list of the JavaScript
object (`Object.entries(vs)`, insertion order, unique keys); an
empty template throws. -/
def buildPrompt (template : List Char) (vs : List (List Char × List Char)) :
    Except (List Char) (List Char) :=
  if template = [] then .error (chars "Prompt template cannot be empty.")
  else .ok (vs.foldl substituteEntry template)

-- ---------------------------------------------------------------------------
-- Specification-side view of templates (for the substitution claims)
-- ---------------------------------------------------------------------------

/-- A template token: a literal segment or a `{{k}}` placeholder. -/
inductive Tok where
  | seg (s : List Char)
  | ph (k : List Char)
deriving DecidableEq, Repr

/-- Render a token list to the template string it denotes. -/
def renderTpl : List Tok → List Char
  | [] => []
  | .seg s :: r => s ++ renderTpl r
  | .ph k :: r => marker k ++ renderTpl r

/-- First value bound to key `k` in the entry list (JavaScript object
keys are unique, so "first" is "the" binding). -/
def lookupVar (vs : List (List Char × List Char)) (k : List Char) :
    Option (List Char) :=
  match vs.find? (fun kv => kv.1 == k) with
  | some kv => some kv.2
  | none => none

/-- Simultaneous substitution, as the specification describes it: each
placeholder whose key is bound becomes its value, each unknown
placeholder stays a literal `{{k}}` marker, segments are untouched. -/
def simSubst (vs : List (List Char × List Char)) : List Tok → List Char
  | [] => []
  | .seg s :: r => s ++ simSubst vs r
  | .ph k :: r => (lookupVar vs k).getD (marker k) ++ simSubst vs r

/-- One entry applied to a single token: a placeholder for the entry's
key becomes a literal segment holding the entry's value; everything else
is untouched. -/
def substTok (k v : List Char) : Tok → Tok
  | .seg s => .seg s
  | .ph u => if u = k then .seg v else .ph u

/-- All entries applied in order to a single token. -/
def applyTok (vs : List (List Char × List Char)) (t : Tok) : Tok :=
  vs.foldl (fun t kv => substTok kv.1 kv.2 t) t

/-- All entries applied in order to a whole token list (the token-level
image of `buildPrompt`'s fold). -/
def applyEntries (vs : List (List Char × List Char)) (tpl : List Tok) : List Tok :=
  vs.foldl (fun tp kv => tp.map (substTok kv.1 kv.2)) tpl

/-- A key is brace-free when it contains neither `{` nor `}`; this is in
particular true of every `[A-Z_][A-Z0-9_]*` placeholder name the
repository uses. -/
def braceFree (s : List Char) : Prop := '{' ∉ s ∧ '}' ∉ s

instance (s : List Char) : Decidable (braceFree s) := by
  unfold braceFree
  infer_instance

/-- Well-formed token list: segments contain no `{` (so no placeholder
can start inside them) and placeholder keys are brace-free. -/
def wfTpl (tpl : List Tok) : Prop :=
  ∀ t ∈ tpl, match t with
    | .seg s => '{' ∉ s
    | .ph k => braceFree k

instance (tpl : List Tok) : Decidable (wfTpl tpl) := by
  unfold wfTpl
  have : DecidablePred fun t : Tok => match t with
    | .seg s => '{' ∉ s
    | .ph k => braceFree k := by
    intro t
    cases t <;> simp <;> infer_instance
  exact List.decidableBAll _ tpl

-- ---------------------------------------------------------------------------
-- Helper lemmas about the retry loop
-- ---------------------------------------------------------------------------

/-- If every attempt from `a` through `a + n` fails with a retryable error,
the loop performs all `n + 1` invocations and `n` backoff sleeps and ends
with the error of the last attempt. -/
theorem retryLoop_all_retryable {α : Type} (attempts : Nat → Except GeminiError α) :
    ∀ (n a : Nat),
      (∀ i, i ≤ n → ∃ e, attempts (a + i) = .error e ∧ e.retryable = true) →
      ∃ e, attempts (a + n) = .error e ∧
        retryLoop attempts a n = ⟨.error e, n + 1, n⟩ := by
  intro n
  induction n with
  | zero =>
    intro a h
    obtain ⟨e, he, -⟩ := h 0 (Nat.le_refl 0)
    refine ⟨e, he, ?_⟩
    simp only [Nat.add_zero] at he
    simp [retryLoop, he]
  | succ n ih =>
    intro a h
    obtain ⟨e0, he0, hr0⟩ := h 0 (Nat.zero_le _)
    simp only [Nat.add_zero] at he0
    have h' : ∀ i, i ≤ n → ∃ e, attempts (a + 1 + i) = .error e ∧ e.retryable = true := by
      intro i hi
      have := h (i + 1) (Nat.succ_le_succ hi)
      simpa [Nat.add_assoc, Nat.add_comm 1 i] using this
    obtain ⟨e, he, hloop⟩ := ih (a + 1) h'
    refine ⟨e, ?_, ?_⟩
    · simpa [Nat.add_assoc, Nat.add_comm 1 n] using he
    · simp [retryLoop, he0, hr0, hloop]

/-- A first attempt failing with a non-retryable error stops the loop at
once: one invocation, no sleep, the error rethrown. -/
theorem retryWithBackoff_nonretryable {α : Type}
    (attempts : Nat → Except GeminiError α) (e : GeminiError)
    (h0 : attempts 0 = .error e) (hr : e.retryable = false) :
    retryWithBackoff attempts = ⟨.error e, 1, 0⟩ := by
  simp [retryWithBackoff, MAX_RETRIES, retryLoop, h0, hr]

-- ---------------------------------------------------------------------------
-- Claim C1
-- ---------------------------------------------------------------------------

/-- Claim C1: a raw failure with extractable HTTP status 429 whose message
matches the quota pattern should be classified `QUOTA_EXCEEDED` with
`retryable = false`.  The code does not do this: at the concrete input
`{status: 429, message: "quota exceeded"}` the rate-limit branch fires
first (it already matches on status 429 alone), so `classifyError`
returns `RATE_LIMITED` with `retryable = true`; the quota branch of the
source is unreachable.  This theorem evaluates the code at that failing
input. -/
theorem claim1_quota_misclassified_as_rate_limited :
    extractStatusCode ⟨chars "quota exceeded", some 429, none, none, none⟩ = some 429 ∧
    testCI (chars "quota") (chars "quota exceeded") = true ∧
    classifyError (.raw ⟨chars "quota exceeded", some 429, none, none, none⟩) =
      ⟨chars "Rate limited by the Gemini API. Retrying with backoff…",
        .RATE_LIMITED, true, some 429⟩ :=
  ⟨rfl, rfl, rfl⟩

-- ---------------------------------------------------------------------------
-- Claim C2
-- ---------------------------------------------------------------------------

/-- Claim C2: for every raw (not already classified) input,
`classifyError` never returns `QUOTA_EXCEEDED` (its result code always
lies in the listed five codes, which exclude `QUOTA_EXCEEDED`), because
every input with status 429 is already captured by the earlier rate-limit
branch: with extractable status 429 the result is always
`INVALID_API_KEY` or `RATE_LIMITED`. -/
theorem claim2_quota_branch_unreachable :
    (∀ r : RawError,
      (classifyError (.raw r)).code ∈
        [GeminiErrorCode.INVALID_API_KEY, .RATE_LIMITED, .NETWORK_ERROR,
          .CONTENT_FILTERED, .UNKNOWN]) ∧
    (∀ r : RawError, extractStatusCode r = some 429 →
      (classifyError (.raw r)).code ∈
        [GeminiErrorCode.INVALID_API_KEY, .RATE_LIMITED]) := by
  constructor
  · intro r
    simp only [classifyError]
    split_ifs with h1 h2 h3 h4 h5 h6 <;> first
      | exact absurd (Or.inl h3.1) h2
      | simp
  · intro r h429
    simp only [classifyError]
    split_ifs with h1 h2 h3 h4 h5 h6 <;> first
      | exact absurd (Or.inl h429) h2
      | simp

/-- Witness for C2: a concrete raw 429 failure, classified as rate-limited. -/
theorem claim2_witness :
    (classifyError (.raw ⟨chars "Too many requests", some 429, none, none, none⟩)).code ∈
      [GeminiErrorCode.INVALID_API_KEY, .RATE_LIMITED] :=
  claim2_quota_branch_unreachable.2
    ⟨chars "Too many requests", some 429, none, none, none⟩ rfl

-- ---------------------------------------------------------------------------
-- Claim C3
-- ---------------------------------------------------------------------------

/-- Claim C3: an attempt function that fails on every invocation with a
retryable error is invoked exactly `MAX_RETRIES + 1 = 4` times, and the
final classified error (the one produced by the last invocation) is
surfaced to the caller. -/
theorem claim3_retryable_exhausts_budget {α : Type}
    (attempts : Nat → Except GeminiError α)
    (h : ∀ i, i ≤ MAX_RETRIES → ∃ e, attempts i = .error e ∧ e.retryable = true) :
    (retryWithBackoff attempts).calls = MAX_RETRIES + 1 ∧ MAX_RETRIES + 1 = 4 ∧
    ∃ e, attempts MAX_RETRIES = .error e ∧
      (retryWithBackoff attempts).result = .error e := by
  obtain ⟨e, he, hloop⟩ := retryLoop_all_retryable attempts MAX_RETRIES 0
    (by simpa using h)
  simp only [Nat.zero_add] at he
  refine ⟨?_, rfl, e, he, ?_⟩
  · simp [retryWithBackoff, hloop]
  · simp [retryWithBackoff, hloop]

/-- Witness for C3: a concrete attempt function that always rejects with a
rate-limited classified error. -/
theorem claim3_witness :
    (retryWithBackoff (fun _ =>
        (.error ⟨chars "rl", .RATE_LIMITED, true, some 429⟩ :
          Except GeminiError (List Char)))).calls = MAX_RETRIES + 1 ∧
    MAX_RETRIES + 1 = 4 ∧
    ∃ e, (fun _ => (.error ⟨chars "rl", .RATE_LIMITED, true, some 429⟩ :
        Except GeminiError (List Char))) MAX_RETRIES = .error e ∧
      (retryWithBackoff (fun _ =>
        (.error ⟨chars "rl", .RATE_LIMITED, true, some 429⟩ :
          Except GeminiError (List Char)))).result = .error e :=
  claim3_retryable_exhausts_budget _ (fun _ _ => ⟨_, rfl, rfl⟩)

-- ---------------------------------------------------------------------------
-- Claim C4
-- ---------------------------------------------------------------------------

/-- Claim C4: a first attempt failing with a non-retryable classified
error is invoked exactly once and the error is rethrown with no backoff
sleep; and the kinds `INVALID_API_KEY`, `QUOTA_EXCEEDED`,
`CONTENT_FILTERED` and `TIMEOUT` all carry `retryable = false` (for
classification of raw values, and for the timeout error constructed by
`withTimeout`). -/
theorem claim4_nonretryable_single_attempt :
    (∀ (α : Type) (attempts : Nat → Except GeminiError α) (e : GeminiError),
      attempts 0 = .error e → e.retryable = false →
      retryWithBackoff attempts = ⟨.error e, 1, 0⟩) ∧
    (∀ r : RawError,
      (classifyError (.raw r)).code ∈
        [GeminiErrorCode.INVALID_API_KEY, .QUOTA_EXCEEDED, .CONTENT_FILTERED,
          .TIMEOUT] →
      (classifyError (.raw r)).retryable = false) ∧
    (∀ ms : Nat, (timeoutError ms).retryable = false) := by
  refine ⟨fun α attempts e h0 hr => retryWithBackoff_nonretryable attempts e h0 hr,
    ?_, fun _ => rfl⟩
  intro r
  simp only [classifyError]
  split_ifs <;> simp

/-- Witness for C4: a concrete non-retryable (invalid API key) first
failure is surfaced after one invocation and zero sleeps; a concrete raw
401 failure classifies to a non-retryable kind; a concrete timeout error
is non-retryable. -/
theorem claim4_witness :
    retryWithBackoff (fun _ =>
        (.error ⟨chars "ak", .INVALID_API_KEY, false, some 401⟩ :
          Except GeminiError (List Char))) =
      ⟨.error ⟨chars "ak", .INVALID_API_KEY, false, some 401⟩, 1, 0⟩ ∧
    (classifyError (.raw ⟨chars "API key not valid", some 401, none, none,
        none⟩)).retryable = false ∧
    (timeoutError 30000).retryable = false :=
  ⟨claim4_nonretryable_single_attempt.1 _ _ _ rfl rfl,
    claim4_nonretryable_single_attempt.2.1 _ (by decide),
    claim4_nonretryable_single_attempt.2.2 30000⟩

-- ---------------------------------------------------------------------------
-- Claim C9
-- ---------------------------------------------------------------------------

/-- Claim C9: a plain-text generation call whose underlying service
response (on its first invocation) carries an empty, missing or
whitespace-only text field fails with the `CONTENT_FILTERED` classified
error, after exactly one invocation (the kind is non-retryable, so the
failure is surfaced to the caller with no retry). -/
theorem claim9_empty_response_content_filtered
    (outcomes : Nat → Except RawValue (Option (List Char)))
    (h : outcomes 0 = .ok none ∨
      ∃ t, outcomes 0 = .ok (some t) ∧ jsTrim t = []) :
    generateTextModel outcomes = ⟨.error emptyResponseError, 1, 0⟩ ∧
    emptyResponseError.code = .CONTENT_FILTERED ∧
    emptyResponseError.retryable = false := by
  have hcall : generateTextCall outcomes 0 = .error emptyResponseError := by
    rcases h with h | ⟨t, ht, htrim⟩
    · simp [generateTextCall, h, processResponse, classifyError]
    · simp [generateTextCall, ht, processResponse, htrim, classifyError]
  exact ⟨retryWithBackoff_nonretryable _ _ hcall rfl, rfl, rfl⟩

/-- Witness for C9: a whitespace-only response text. -/
theorem claim9_witness :
    generateTextModel (fun _ => .ok (some (chars "   "))) =
      ⟨.error emptyResponseError, 1, 0⟩ ∧
    emptyResponseError.code = .CONTENT_FILTERED ∧
    emptyResponseError.retryable = false :=
  claim9_empty_response_content_filtered _ (Or.inr ⟨chars "   ", rfl, rfl⟩)


-- ---------------------------------------------------------------------------
-- Helper lemmas for truncation
-- ---------------------------------------------------------------------------

/-- Dropping trailing whitespace never lengthens a string. -/
theorem trimEndJs_length_le (s : List Char) : (trimEndJs s).length ≤ s.length := by
  have h := (List.dropWhile_sublist (l := s.reverse) isJsWhitespace).length_le
  simpa [trimEndJs] using h

-- ---------------------------------------------------------------------------
-- Claim C5
-- ---------------------------------------------------------------------------

/-- Claim C5 counterexample: with `maxTokens = 1` (budget `4` characters)
and a 5-character input, truncation takes the `availableChars ≤ 0`
fallback and returns the bare 34-character truncation notice, which
exceeds the claimed `maxTokens*4` bound. -/
theorem claim5_counterexample :
    truncateContext (chars "AAAAA") 1 =
      .ok (chars "[Content truncated due to length…]") ∧
    1 * 4 < (chars "[Content truncated due to length…]").length :=
  ⟨rfl, by decide⟩

/-- Claim C5 as amended: whenever `maxTokens*4` is at least the length of
the truncation notice (36 characters), i.e. for every `maxTokens ≥ 9`,
the output of `truncateContext text maxTokens` has length at most
`maxTokens*4`.  (For `1 ≤ maxTokens ≤ 8` the fallback notice itself, 34
characters, can exceed the budget.) -/
theorem claim5_amended_truncate_bound (text : List Char) (maxTokens : Int)
    (hm : 9 ≤ maxTokens) :
    ∃ out, truncateContext text maxTokens = .ok out ∧
      (out.length : Int) ≤ maxTokens * 4 := by
  have hsuffix : TRUNCATION_SUFFIX.length = 36 := rfl
  simp only [truncateContext, CHARS_PER_TOKEN, hsuffix]
  split_ifs with h1 h2 h3 h4 h5
  · exact ⟨text, rfl, by simp [h1]; omega⟩
  · exact absurd hm (by omega)
  · exact ⟨text, rfl, h3⟩
  · refine ⟨_, rfl, ?_⟩
    rw [show (jsTrim TRUNCATION_SUFFIX).length = 34 from rfl]
    omega
  · refine ⟨_, rfl, ?_⟩
    rw [List.length_append, hsuffix]
    have ht := trimEndJs_length_le
      ((text.take (maxTokens * 4 - 36).toNat).take
        (findLastSentenceBoundary (text.take (maxTokens * 4 - 36).toNat)).toNat)
    have htk := List.length_take_le
      (findLastSentenceBoundary (text.take (maxTokens * 4 - 36).toNat)).toNat
      (text.take (maxTokens * 4 - 36).toNat)
    have htk' := List.length_take_le'
      (n := (findLastSentenceBoundary (text.take (maxTokens * 4 - 36).toNat)).toNat)
      (l := text.take (maxTokens * 4 - 36).toNat)
    have hs := List.length_take_le (maxTokens * 4 - 36).toNat text
    push_cast
    omega
  · refine ⟨_, rfl, ?_⟩
    rw [List.length_append, hsuffix]
    have ht := trimEndJs_length_le (text.take (maxTokens * 4 - 36).toNat)
    have hs := List.length_take_le (maxTokens * 4 - 36).toNat text
    push_cast
    omega

/-- Witness for the amended C5 at `maxTokens = 9` (the smallest amended
budget) on a long input. -/
theorem claim5_witness :
    ∃ out,
      truncateContext
          (chars "This is a fairly long sentence. It keeps going for a while.") 9 =
        .ok out ∧ (out.length : Int) ≤ 9 * 4 :=
  claim5_amended_truncate_bound _ 9 (by decide)

-- ---------------------------------------------------------------------------
-- Claim C6
-- ---------------------------------------------------------------------------

/-- Claim C6 counterexample: the empty-text early return
(`if (!text) return text;`) comes before the `maxTokens` validation, so
calling `truncateContext` on the empty string with `maxTokens ≤ 0`
returns the empty string instead of raising the argument error the claim
requires for every input text. -/
theorem claim6_counterexample :
    truncateContext [] 0 = .ok [] ∧ truncateContext [] (-5) = .ok [] :=
  ⟨rfl, rfl⟩

/-- Claim C6 as amended: for every NON-EMPTY input text, `truncateContext`
with `maxTokens ≤ 0` raises the argument error (the empty string slips
past the check and is returned unchanged). -/
theorem claim6_amended_error_on_nonpositive (text : List Char) (maxTokens : Int)
    (hne : text ≠ []) (hm : maxTokens ≤ 0) :
    truncateContext text maxTokens =
      .error (chars "maxTokens must be a positive number.") := by
  simp [truncateContext, hne, hm]

/-- Witness for the amended C6. -/
theorem claim6_witness :
    truncateContext (chars "test") 0 =
      .error (chars "maxTokens must be a positive number.") :=
  claim6_amended_error_on_nonpositive (chars "test") 0 (by decide) (by decide)

-- ---------------------------------------------------------------------------
-- Claim C7
-- ---------------------------------------------------------------------------

/-- Claim C7 counterexample: a supplied timeout override of `0` is NOT
returned verbatim — `if (overrideMs)` is a JavaScript truthiness test, so
`0` falls through to the adaptive computation and
`calcTimeout 12000 (some 0)` yields `60000`, not `0`. -/
theorem claim7_counterexample :
    calcTimeout 12000 (some 0) = 60000 ∧ 0 < 60000 :=
  ⟨rfl, by decide⟩

/-- Claim C7 as amended: a NON-ZERO supplied override is returned
verbatim; a zero override is treated exactly like an absent one (both
fall through to the adaptive formula); with no override the result is
`min (base + ceil(promptLength/5000) * perBlockIncrement) cap`, and in
particular `calcTimeout 12000 = 60000` with base 30000 ms, per-block
10000 ms and cap 90000 ms. -/
theorem claim7_amended_timeout :
    (∀ len o : Nat, o ≠ 0 → calcTimeout len (some o) = o) ∧
    (∀ len : Nat, calcTimeout len none =
      min (BASE_TIMEOUT_MS + ((len + 4999) / 5000) * TIMEOUT_PER_5K_CHARS_MS)
        MAX_TIMEOUT_MS) ∧
    (∀ len : Nat, calcTimeout len (some 0) = calcTimeout len none) ∧
    calcTimeout 12000 none = 60000 := by
  refine ⟨?_, fun len => rfl, fun len => rfl, rfl⟩
  intro len o ho
  simp [calcTimeout, ho]

/-- Witness for the amended C7: a concrete non-zero override is returned
verbatim. -/
theorem claim7_witness : calcTimeout 3 (some 7) = 7 :=
  claim7_amended_timeout.1 3 7 (by decide)

-- ---------------------------------------------------------------------------
-- Helper lemmas for substitution: split/join is replace-all
-- ---------------------------------------------------------------------------

/-- The fuel argument of `replaceAllAux` is irrelevant once it is at least
the length of the string. -/
theorem replaceAllAux_fuel (p v : List Char) :
    ∀ (f1 : Nat) (f2 : Nat) (s : List Char), s.length ≤ f1 → s.length ≤ f2 →
      replaceAllAux p v f1 s = replaceAllAux p v f2 s := by
  intro f1
  induction f1 with
  | zero =>
    intro f2 s h1 _
    have : s = [] := List.eq_nil_of_length_eq_zero (Nat.le_zero.mp h1)
    subst this
    cases f2 <;> rfl
  | succ f1 ih =>
    intro f2 s h1 h2
    cases s with
    | nil => cases f2 <;> rfl
    | cons c s' =>
      cases f2 with
      | zero => simp at h2
      | succ g =>
        simp only [replaceAllAux]
        split_ifs with h
        · have hplen : 1 ≤ p.length := by
            cases hp : p with
            | nil => exact absurd hp h.1
            | cons a l => simp [hp]
          have hdrop : ((c :: s').drop p.length).length ≤ s'.length := by
            simp only [List.length_drop, List.length_cons]
            omega
          simp only [List.length_cons] at h1 h2
          rw [ih g _ (le_trans hdrop (by omega)) (le_trans hdrop (by omega))]
        · simp only [List.length_cons] at h1 h2
          rw [ih g s' (by omega) (by omega)]

/-- `jsSplitAux` never returns the empty list of fragments. -/
theorem jsSplitAux_ne_nil (p : List Char) :
    ∀ (f : Nat) (s : List Char), jsSplitAux p f s ≠ [] := by
  intro f s
  match f, s with
  | _, [] => simp [jsSplitAux]
  | 0, c :: s => simp [jsSplitAux]
  | f + 1, c :: s =>
    simp only [jsSplitAux]
    split_ifs with h
    · simp
    · split <;> simp

/-- `List.intercalate` on a singleton. -/
theorem intercalate_single (v a : List Char) : List.intercalate v [a] = a := by
  simp [List.intercalate]

/-- `List.intercalate` on two or more chunks. -/
theorem intercalate_cons₂ (v a b : List Char) (l : List (List Char)) :
    List.intercalate v (a :: b :: l) = a ++ v ++ List.intercalate v (b :: l) := by
  simp [List.intercalate, List.append_assoc]

/-- Prepending a character to the first fragment prepends it to the
intercalation. -/
theorem intercalate_cons_head (v : List Char) (c : Char) (x : List Char)
    (r : List (List Char)) :
    List.intercalate v ((c :: x) :: r) = c :: List.intercalate v (x :: r) := by
  cases r with
  | nil => simp [intercalate_single]
  | cons y r' => simp [intercalate_cons₂]

/-- `split(p).join(v)` IS replace-all: joining the fragments of
`jsSplitAux` with `v` replaces every occurrence of `p` by `v`. -/
theorem intercalate_jsSplitAux (p v : List Char) :
    ∀ (f : Nat) (s : List Char),
      List.intercalate v (jsSplitAux p f s) = replaceAllAux p v f s := by
  intro f
  induction f with
  | zero =>
    intro s
    cases s with
    | nil => simp [jsSplitAux, replaceAllAux, List.intercalate]
    | cons c s' => simp [jsSplitAux, replaceAllAux, intercalate_single]
  | succ f ih =>
    intro s
    cases s with
    | nil => simp [jsSplitAux, replaceAllAux, List.intercalate]
    | cons c s' =>
      simp only [jsSplitAux, replaceAllAux]
      split_ifs with h
      · obtain ⟨x, r, hx⟩ :
            ∃ x r, jsSplitAux p f ((c :: s').drop p.length) = x :: r := by
          cases hq : jsSplitAux p f ((c :: s').drop p.length) with
          | nil => exact absurd hq (jsSplitAux_ne_nil p f _)
          | cons x r => exact ⟨x, r, rfl⟩
        rw [hx]
        rw [show List.intercalate v ([] :: x :: r) =
            v ++ List.intercalate v (x :: r) from by
          rw [intercalate_cons₂]; simp]
        rw [← hx, ih]
      · obtain ⟨x, r, hx⟩ : ∃ x r, jsSplitAux p f s' = x :: r := by
          cases hq : jsSplitAux p f s' with
          | nil => exact absurd hq (jsSplitAux_ne_nil p f s')
          | cons x r => exact ⟨x, r, rfl⟩
        rw [hx, intercalate_cons_head, ← hx, ih]

/-- The wrapper form: one `buildPrompt` step on `acc` replaces every
occurrence of the entry's `{{key}}` marker in `acc` by the entry's value. -/
theorem substituteEntry_eq_replaceAll (acc : List Char) (kv : List Char × List Char) :
    substituteEntry acc kv = replaceAll (marker kv.1) kv.2 acc :=
  intercalate_jsSplitAux (marker kv.1) kv.2 acc.length acc

/-- `replaceAll` on the empty string. -/
theorem replaceAll_nil (p v : List Char) : replaceAll p v [] = [] := rfl

/-- `replaceAll` when the pattern matches at the head. -/
theorem replaceAll_pos (p v s : List Char) (hp : p ≠ []) (hpre : p.isPrefixOf s) :
    replaceAll p v s = v ++ replaceAll p v (s.drop p.length) := by
  cases s with
  | nil =>
    have : p <+: [] := List.isPrefixOf_iff_prefix.mp hpre
    exact absurd (List.prefix_nil.mp this) hp
  | cons c s' =>
    show replaceAllAux p v (s'.length + 1) (c :: s') = _
    simp only [replaceAllAux]
    rw [if_pos ⟨hp, hpre⟩]
    congr 1
    have hplen : 1 ≤ p.length := by
      cases hq : p with
      | nil => exact absurd hq hp
      | cons a l => simp [hq]
    exact replaceAllAux_fuel p v s'.length ((c :: s').drop p.length).length _
      (by simp only [List.length_drop, List.length_cons]; omega) (Nat.le_refl _)

/-- `replaceAll` when the pattern does not match at the head. -/
theorem replaceAll_neg (p v : List Char) (c : Char) (s : List Char)
    (h : ¬ p.isPrefixOf (c :: s)) :
    replaceAll p v (c :: s) = c :: replaceAll p v s := by
  show replaceAllAux p v (s.length + 1) (c :: s) = _
  simp only [replaceAllAux]
  rw [if_neg (fun hcon => h hcon.2)]
  rfl

-- ---------------------------------------------------------------------------
-- Helper lemmas: replaceAll over rendered templates
-- ---------------------------------------------------------------------------

/-- `replaceAll` with a `{{k}}` pattern walks straight over a segment that
contains no opening brace. -/
theorem replaceAll_seg (k v : List Char) (s t : List Char) (hs : '{' ∉ s) :
    replaceAll (marker k) v (s ++ t) = s ++ replaceAll (marker k) v t := by
  induction s with
  | nil => simp
  | cons c s' ih =>
    have hc : c ≠ '{' := fun hc => hs (hc ▸ List.mem_cons_self c s')
    have hnot : ¬ (marker k).isPrefixOf (c :: (s' ++ t)) := by
      intro hpre
      have h := List.isPrefixOf_iff_prefix.mp hpre
      rw [marker] at h
      obtain ⟨h1, -⟩ := List.cons_prefix_cons.mp h
      exact hc h1.symm
    rw [List.cons_append, replaceAll_neg _ _ _ _ hnot,
      ih (fun h => hs (List.mem_cons_of_mem c h)), List.cons_append]

/-- Core disjointness fact: for distinct brace-free keys, the tail
`k}}` of one marker is never a prefix of `u}}…` for the other key. -/
theorem key_mismatch :
    ∀ (k u t : List Char), '}' ∉ k → '}' ∉ u → k ≠ u →
      ¬ (k ++ ['}', '}']) <+: (u ++ '}' :: '}' :: t) := by
  intro k
  induction k with
  | nil =>
    intro u t _ hu hne hpre
    cases u with
    | nil => exact hne rfl
    | cons d u' =>
      rw [List.nil_append, List.cons_append] at hpre
      obtain ⟨h1, -⟩ := List.cons_prefix_cons.mp hpre
      exact hu (h1 ▸ List.mem_cons_self d u')
  | cons c k' ih =>
    intro u t hk hu hne hpre
    cases u with
    | nil =>
      rw [List.cons_append, List.nil_append] at hpre
      obtain ⟨h1, -⟩ := List.cons_prefix_cons.mp hpre
      exact hk (h1 ▸ List.mem_cons_self c k')
    | cons d u' =>
      rw [List.cons_append, List.cons_append] at hpre
      obtain ⟨h1, h2⟩ := List.cons_prefix_cons.mp hpre
      exact ih u' t (fun h => hk (List.mem_cons_of_mem c h))
        (fun h => hu (List.mem_cons_of_mem d h))
        (fun he => hne (by rw [h1, he])) h2

/-- The marker of key `k` is not a prefix of `{{u}}…` when `k ≠ u` and
both keys are brace-free. -/
theorem marker_mismatch (k u t : List Char) (hk : braceFree k) (hu : braceFree u)
    (hne : k ≠ u) : ¬ (marker k).isPrefixOf (marker u ++ t) := by
  intro hpre
  have h := List.isPrefixOf_iff_prefix.mp hpre
  simp only [marker, List.cons_append] at h
  obtain ⟨-, h⟩ := List.cons_prefix_cons.mp h
  obtain ⟨-, h⟩ := List.cons_prefix_cons.mp h
  rw [List.append_assoc] at h
  exact key_mismatch k u t hk.2 hu.2 hne h

/-- `replaceAll` replaces its own marker at the head. -/
theorem replaceAll_marker_hit (k v t : List Char) :
    replaceAll (marker k) v (marker k ++ t) = v ++ replaceAll (marker k) v t := by
  rw [replaceAll_pos (marker k) v (marker k ++ t) (by simp [marker])
    (List.isPrefixOf_iff_prefix.mpr (List.prefix_append _ _)), List.drop_left]

/-- `replaceAll` with the marker of `k` walks straight over the marker of
a different brace-free key `u`. -/
theorem replaceAll_marker_ne (k u v t : List Char) (hk : braceFree k)
    (hu : braceFree u) (hne : k ≠ u) :
    replaceAll (marker k) v (marker u ++ t) =
      marker u ++ replaceAll (marker k) v t := by
  have e1 : marker u ++ t = '{' :: ('{' :: (u ++ ('}' :: '}' :: t))) := by
    simp [marker]
  have h0 : ¬ (marker k).isPrefixOf ('{' :: ('{' :: (u ++ ('}' :: '}' :: t)))) := by
    rw [← e1]
    exact marker_mismatch k u t hk hu hne
  have h1 : ¬ (marker k).isPrefixOf ('{' :: (u ++ ('}' :: '}' :: t))) := by
    intro hp
    have h := List.isPrefixOf_iff_prefix.mp hp
    rw [marker] at h
    obtain ⟨-, h⟩ := List.cons_prefix_cons.mp h
    cases hu' : u with
    | nil =>
      rw [hu'] at h
      rw [List.nil_append] at h
      obtain ⟨h1', -⟩ := List.cons_prefix_cons.mp h
      exact absurd h1' (by decide)
    | cons d u'' =>
      rw [hu', List.cons_append] at h
      obtain ⟨h1', -⟩ := List.cons_prefix_cons.mp h
      exact hu.1 (hu' ▸ (h1' ▸ List.mem_cons_self d u''))
  have h2 : ¬ (marker k).isPrefixOf ('}' :: ('}' :: t)) := by
    intro hp
    have h := List.isPrefixOf_iff_prefix.mp hp
    rw [marker] at h
    obtain ⟨h1', -⟩ := List.cons_prefix_cons.mp h
    exact absurd h1' (by decide)
  have h3 : ¬ (marker k).isPrefixOf ('}' :: t) := by
    intro hp
    have h := List.isPrefixOf_iff_prefix.mp hp
    rw [marker] at h
    obtain ⟨h1', -⟩ := List.cons_prefix_cons.mp h
    exact absurd h1' (by decide)
  rw [e1, replaceAll_neg _ _ _ _ h0, replaceAll_neg _ _ _ _ h1,
    replaceAll_seg k v u _ hu.1]
  rw [replaceAll_neg _ _ _ _ h2, replaceAll_neg _ _ _ _ h3]
  simp [marker]

/-- One substitution step maps a rendered well-formed template to the
rendering of the token-wise substituted template. -/
theorem replaceAll_render (k v : List Char) (hk : braceFree k) :
    ∀ tpl : List Tok, wfTpl tpl →
      replaceAll (marker k) v (renderTpl tpl) =
        renderTpl (tpl.map (substTok k v)) := by
  intro tpl
  induction tpl with
  | nil => intro _; rfl
  | cons t r ih =>
    intro hwf
    have hwfr : wfTpl r := fun x hx => hwf x (List.mem_cons_of_mem t hx)
    cases t with
    | seg s =>
      have hs : '{' ∉ s := hwf (.seg s) (List.mem_cons_self _ _)
      simp only [renderTpl, List.map_cons, substTok]
      rw [replaceAll_seg k v s _ hs, ih hwfr]
    | ph u =>
      have hu : braceFree u := hwf (.ph u) (List.mem_cons_self _ _)
      by_cases he : u = k
      · subst he
        simp only [renderTpl, List.map_cons, substTok, if_pos rfl]
        rw [replaceAll_marker_hit, ih hwfr]
      · simp only [renderTpl, List.map_cons, substTok, if_neg he]
        rw [replaceAll_marker_ne k u v _ hk hu (fun h => he h.symm), ih hwfr]

/-- Token-wise substitution preserves template well-formedness when the
substituted value contains no opening brace. -/
theorem wfTpl_map_substTok (k v : List Char) (hv : '{' ∉ v) (tpl : List Tok)
    (hwf : wfTpl tpl) : wfTpl (tpl.map (substTok k v)) := by
  intro t ht
  obtain ⟨t0, ht0, rfl⟩ := List.mem_map.mp ht
  cases t0 with
  | seg s => exact hwf (.seg s) ht0
  | ph u =>
    have hu : braceFree u := hwf (.ph u) ht0
    simp only [substTok]
    split_ifs with he
    · exact hv
    · exact hu

/-- `buildPrompt`'s fold over the entries is the rendering of the
token-level fold, for well-formed templates and brace-free entries. -/
theorem foldl_substituteEntry (vs : List (List Char × List Char)) :
    ∀ tpl : List Tok, wfTpl tpl →
      (∀ kv ∈ vs, braceFree kv.1 ∧ '{' ∉ kv.2) →
      List.foldl substituteEntry (renderTpl tpl) vs =
        renderTpl (applyEntries vs tpl) := by
  induction vs with
  | nil => intro tpl _ _; rfl
  | cons kv vs ih =>
    intro tpl hwf hv
    have hkv := hv kv (List.mem_cons_self kv vs)
    have hstep : substituteEntry (renderTpl tpl) kv =
        renderTpl (tpl.map (substTok kv.1 kv.2)) := by
      rw [substituteEntry_eq_replaceAll, replaceAll_render kv.1 kv.2 hkv.1 tpl hwf]
    show List.foldl substituteEntry
        (substituteEntry (renderTpl tpl) kv) vs = _
    rw [hstep, ih (tpl.map (substTok kv.1 kv.2))
      (wfTpl_map_substTok kv.1 kv.2 hkv.2 tpl hwf)
      (fun kv' h => hv kv' (List.mem_cons_of_mem kv h))]
    rfl

/-- `applyEntries` on the empty token list. -/
theorem applyEntries_nil (vs : List (List Char × List Char)) :
    applyEntries vs [] = [] := by
  induction vs with
  | nil => rfl
  | cons kv vs ih => simpa [applyEntries, List.foldl_cons] using ih

/-- `applyEntries` distributes over the head token. -/
theorem applyEntries_cons (vs : List (List Char × List Char)) :
    ∀ (t : Tok) (tpl : List Tok),
      applyEntries vs (t :: tpl) = applyTok vs t :: applyEntries vs tpl := by
  induction vs with
  | nil => intro t tpl; rfl
  | cons kv vs ih =>
    intro t tpl
    show applyEntries vs (substTok kv.1 kv.2 t :: tpl.map (substTok kv.1 kv.2)) = _
    rw [ih (substTok kv.1 kv.2 t) (tpl.map (substTok kv.1 kv.2))]
    rfl

/-- Applying every entry to a literal segment leaves it untouched. -/
theorem applyTok_seg (vs : List (List Char × List Char)) (s : List Char) :
    applyTok vs (.seg s) = .seg s := by
  induction vs with
  | nil => rfl
  | cons kv vs ih => simpa [applyTok, List.foldl_cons, substTok] using ih

/-- Applying every entry to a placeholder yields the first bound value as
a segment, or leaves the placeholder when its key is unbound. -/
theorem applyTok_ph (vs : List (List Char × List Char)) :
    ∀ k : List Char,
      applyTok vs (.ph k) =
        (match lookupVar vs k with
          | some v => Tok.seg v
          | none => Tok.ph k) := by
  induction vs with
  | nil => intro k; rfl
  | cons kv vs ih =>
    intro k
    show applyTok vs (substTok kv.1 kv.2 (.ph k)) = _
    by_cases he : k = kv.1
    · rw [show substTok kv.1 kv.2 (.ph k) = .seg kv.2 from by
        simp [substTok, he]]
      rw [applyTok_seg]
      simp [lookupVar, List.find?, he]
    · rw [show substTok kv.1 kv.2 (.ph k) = .ph k from by
        simp [substTok, he]]
      rw [ih k]
      have : (kv.1 == k) = false := by
        simp [he]
        exact fun h => he h.symm
      simp [lookupVar, List.find?, this]

/-- Rendering the token-level fold is exactly simultaneous substitution:
bound placeholders (all their occurrences) become their values, unbound
placeholders stay literal markers, unused entries have no effect. -/
theorem renderTpl_applyEntries (vs : List (List Char × List Char)) :
    ∀ tpl : List Tok, renderTpl (applyEntries vs tpl) = simSubst vs tpl := by
  intro tpl
  induction tpl with
  | nil => rw [applyEntries_nil]; rfl
  | cons t tpl ih =>
    rw [applyEntries_cons]
    cases t with
    | seg s =>
      rw [applyTok_seg]
      simp [renderTpl, simSubst, ih]
    | ph k =>
      rw [applyTok_ph]
      cases hl : lookupVar vs k with
      | some v => simp [renderTpl, simSubst, hl, ih]
      | none => simp [renderTpl, simSubst, hl, ih]

-- ---------------------------------------------------------------------------
-- Claim C8
-- ---------------------------------------------------------------------------

/-- Claim C8: `buildPrompt` raises the empty-template error exactly when
the template is empty; a single entry replaces EVERY literal occurrence
of its `{{KEY}}` marker (split-on-marker joined with the value is
replace-all, which is exhaustive and matches the key case-sensitively);
and on any well-formed template (brace-free keys, segments and values
without stray braces) the whole fold performs simultaneous substitution:
every bound placeholder becomes its value at all occurrences, markers
whose key is not in the map stay intact, and unused entries are silently
ignored (the result only depends on the keys the template mentions). -/
theorem claim8_substitution :
    (∀ vs : List (List Char × List Char),
      buildPrompt [] vs = .error (chars "Prompt template cannot be empty.")) ∧
    (∀ (t k v : List Char), t ≠ [] →
      buildPrompt t [(k, v)] = .ok (replaceAll (marker k) v t)) ∧
    (∀ (tpl : List Tok) (vs : List (List Char × List Char)),
      wfTpl tpl → (∀ kv ∈ vs, braceFree kv.1 ∧ '{' ∉ kv.2) →
      renderTpl tpl ≠ [] →
      buildPrompt (renderTpl tpl) vs = .ok (simSubst vs tpl)) := by
  refine ⟨fun vs => rfl, ?_, ?_⟩
  · intro t k v ht
    simp only [buildPrompt, if_neg ht]
    rw [List.foldl_cons, List.foldl_nil, substituteEntry_eq_replaceAll]
  · intro tpl vs hwf hv hne
    simp only [buildPrompt, if_neg hne]
    rw [foldl_substituteEntry vs tpl hwf hv, renderTpl_applyEntries]

/-- Witness for C8: the specification's acceptance example
`substitute("Hello {{NAME}}!", {NAME: "Alice"})`. -/
theorem claim8_witness :
    buildPrompt
        (renderTpl [Tok.seg (chars "Hello "), Tok.ph (chars "NAME"),
          Tok.seg (chars "!")])
        [(chars "NAME", chars "Alice")] =
      .ok (simSubst [(chars "NAME", chars "Alice")]
        [Tok.seg (chars "Hello "), Tok.ph (chars "NAME"), Tok.seg (chars "!")]) :=
  claim8_substitution.2.2
    [Tok.seg (chars "Hello "), Tok.ph (chars "NAME"), Tok.seg (chars "!")]
    [(chars "NAME", chars "Alice")] (by decide) (by decide) (by decide)

-- ---------------------------------------------------------------------------
-- Claim C10
-- ---------------------------------------------------------------------------

/-- Claim C10: substitution is applied sequentially in entry order, so a
replacement value that contains a later entry's marker is substituted
again: on template `{{A}}` with `A ↦ "{{B}}"` then `B ↦ "x"`, the code
yields `"x"`, while simultaneous substitution of the original template's
markers yields `"{{B}}"` — the two differ. -/
theorem claim10_sequential_substitution :
    buildPrompt (chars "{{A}}")
        [(chars "A", chars "{{B}}"), (chars "B", chars "x")] =
      .ok (chars "x") ∧
    renderTpl [Tok.ph (chars "A")] = chars "{{A}}" ∧
    simSubst [(chars "A", chars "{{B}}"), (chars "B", chars "x")]
        [Tok.ph (chars "A")] =
      chars "{{B}}" ∧
    (chars "x" == chars "{{B}}") = false :=
  ⟨rfl, rfl, rfl, rfl⟩
